import Mathlib

/-!
Shallow embedding of the syncortexGA hard-constraint validation engine.

The domain model mirrors `src/syncortexGA/models/timetable_model.py`
(pydantic value types with structural equality) and the constraint
checker mirrors `src/syncortexGA/constraints/hard_constraints.py`.
Python `int` is embedded as `Int`, time strings as `String` (their
HH:MM format is enforced by the out-of-scope construction layer and is
irrelevant to the checked properties), and the pydantic structural
`__eq__` becomes derived `DecidableEq` on structures.
-/

namespace SyncortexGA

/-- Weekday enumeration, mirroring the `Literal` day type of `TimeSlot`. -/
inductive Day where
  | Saturday | Sunday | Monday | Tuesday | Wednesday | Thursday
deriving DecidableEq, Repr

/-- Represents a specific time slot on a given day.  `start`/`end` are the
HH:MM time strings of the source model. -/
structure TimeSlot where
  day : Day
  start : String
  «end» : String
deriving DecidableEq, Repr

/-- Represents a fixed pattern with exactly 2 weekly sessions. -/
structure FixedSessionPattern where
  slots : List TimeSlot
deriving DecidableEq, Repr

/-- Week parity mode of an alternating pattern. -/
inductive AlternatingMode where
  | odd | even
deriving DecidableEq, Repr

/-- Represents a pattern where a course alternates between two slots weekly. -/
structure AlternatingSessionPattern where
  fixed_slot : TimeSlot
  alternating_slot : TimeSlot
  alternating_mode : AlternatingMode
  paired_course_id : Int
deriving DecidableEq, Repr

/-- Represents a lab session pattern that occurs weekly at a fixed time. -/
structure LabSessionPattern where
  slot : TimeSlot
deriving DecidableEq, Repr

/-- Tag of a session pattern. -/
inductive PatternType where
  | fixed | alternating | lab
deriving DecidableEq, Repr

/-- Wraps either a fixed, alternating or lab session pattern; the
construction-time validator guarantees exactly one variant matching
`type` is populated, which the checked claims do not depend on. -/
structure SessionPattern where
  type : PatternType
  fixed_pattern : Option FixedSessionPattern := none
  alternating_pattern : Option AlternatingSessionPattern := none
  lab_pattern : Option LabSessionPattern := none
deriving DecidableEq, Repr

/-- Represents a group of students (e.g., a class or cohort). -/
structure StudentGroup where
  id : Int
  name : String
  major : String
  entry_year : Int
deriving DecidableEq, Repr

/-- Represents an instructor with available and preferred time slots. -/
structure Instructor where
  id : Int
  full_name : String
  available_slots : List TimeSlot
  preferred_slots : Option (List TimeSlot) := none
deriving DecidableEq, Repr

/-- Represents a classroom or lab with capacity constraints. -/
structure Room where
  id : Int
  name : String
  capacity : Int
  is_lab : Bool := false
deriving DecidableEq, Repr

/-- Represents a course that may or may not include a lab. -/
structure Course where
  id : Int
  name : String
  code : String
  session_pattern : Option SessionPattern := none
deriving DecidableEq, Repr

/-- Kind of a scheduled session. -/
inductive SessionType where
  | theory | lab
deriving DecidableEq, Repr

/-- Represents a scheduled class session (theory or lab).  Field names
follow the source (`course_id` etc. hold the full referenced values). -/
structure ScheduledSession where
  course_id : Course
  group_id : StudentGroup
  instructor_id : Instructor
  room_id : Room
  slot : TimeSlot
  type : SessionType
deriving DecidableEq, Repr

/-- The pydantic `model_validator` `validate_slot` of `ScheduledSession`:
a lab- or theory-typed session whose course carries no session pattern is
rejected at construction time with a raised error (pydantic `ValueError`,
the spec's PreconditionViolation), embedded as `Except.error`. -/
def ScheduledSession.validate_slot (model : ScheduledSession) :
    Except String ScheduledSession :=
  if model.type = SessionType.lab ∧ model.course_id.session_pattern = none then
    Except.error "Lab sessions must have a lab session pattern defined"
  else if model.type = SessionType.theory ∧ model.course_id.session_pattern = none then
    Except.error "Theory sessions must have a session pattern defined"
  else
    Except.ok model

/-- Represents the final schedule as a list of sessions. -/
structure Timetable where
  sessions : List ScheduledSession
deriving DecidableEq, Repr

/-- Key type of the `seen` mapping in `check_h1_instructor_conflicts`:
`(instructor.id, slot.day, slot.start, slot.end)`. -/
abbrev ConflictKey := Int × Day × String × String

/-- The conflict key the source computes for a session under H1. -/
def sessionKey (session : ScheduledSession) : ConflictKey :=
  (session.instructor_id.id, session.slot.day, session.slot.start,
    session.slot.«end»)

/-- The loop body of `check_h1_instructor_conflicts`: scans the sessions,
returning `false` as soon as a session is outside its instructor's
available slots or its key is already in `seen` (the Python dict is
embedded as the list of inserted keys, queried by membership). -/
def check_h1_go : List ScheduledSession → List ConflictKey → Bool
  | [], _ => true
  | session :: rest, seen =>
    let instructor := session.instructor_id
    let slot := session.slot
    if slot ∈ instructor.available_slots then
      let key : ConflictKey := (instructor.id, slot.day, slot.start, slot.«end»)
      if key ∈ seen then
        false
      else
        check_h1_go rest (key :: seen)
    else
      false

/-- Ensures no instructor is scheduled for more than one session at the
same time and only in their available time slots
(`src/syncortexGA/constraints/hard_constraints.py`). -/
def check_h1_instructor_conflicts (timetable : Timetable) : Bool :=
  check_h1_go timetable.sessions []

/-- Modelled from the spec: the generic resource-conflict detector of
§4.1, which is given a resource-key extractor, builds the occurrence
mapping keyed by `(resource_id, day, start, end)` in one scan, and fails
as soon as a key repeats.  The repository only instantiates it for
instructors (`check_h1_instructor_conflicts`); the room and group
instantiations below follow the spec's words. -/
def scan_conflicts (key : ScheduledSession → ConflictKey) :
    List ScheduledSession → List ConflictKey → Bool
  | [], _ => true
  | session :: rest, seen =>
    if key session ∈ seen then
      false
    else
      scan_conflicts key rest (key session :: seen)

/-- Modelled from the spec: the H2 resource key `(room.id, day, start, end)`. -/
def roomKey (session : ScheduledSession) : ConflictKey :=
  (session.room_id.id, session.slot.day, session.slot.start, session.slot.«end»)

/-- Modelled from the spec: the H3 resource key `(group.id, day, start, end)`. -/
def groupKey (session : ScheduledSession) : ConflictKey :=
  (session.group_id.id, session.slot.day, session.slot.start, session.slot.«end»)

/-- Modelled from the spec: H2, the resource-conflict detector
instantiated with resource = room (no room double-booked). -/
def check_h2_room_conflicts (timetable : Timetable) : Bool :=
  scan_conflicts roomKey timetable.sessions []

/-- Modelled from the spec: H3, the resource-conflict detector
instantiated with resource = student group (no group double-booked). -/
def check_h3_group_conflicts (timetable : Timetable) : Bool :=
  scan_conflicts groupKey timetable.sessions []

/-- The pydantic construction of `Timetable(sessions=...)`: every
`ScheduledSession` runs its `validate_slot` model validator, and the
first raised error aborts construction. -/
def Timetable.build : List ScheduledSession → Except String Timetable
  | [] => Except.ok { sessions := [] }
  | session :: rest =>
    match session.validate_slot with
    | Except.error msg => Except.error msg
    | Except.ok s =>
      match Timetable.build rest with
      | Except.error msg => Except.error msg
      | Except.ok t => Except.ok { sessions := s :: t.sessions }

/-- The caller flow exercised by the unit tests: construct the
`Timetable` (running the model layer's construction-time validators) and
then evaluate `check_h1_instructor_conflicts` on it.  A raised
construction error (`Except.error`) is the spec's PreconditionViolation;
a constraint outcome is the boolean verdict inside `Except.ok`. -/
def run_validation (sessions : List ScheduledSession) : Except String Bool :=
  match Timetable.build sessions with
  | Except.error msg => Except.error msg
  | Except.ok t => Except.ok (check_h1_instructor_conflicts t)

/-- State threaded through the explicit-state rendering of the H1 loop:
the timetable handed in by the caller together with the local `seen`
mapping.  The source loop reads `timetable.sessions` and writes only to
`seen`; threading the timetable through the state makes the frame
property (the input is never mutated) provable rather than implicit. -/
structure H1Memory where
  timetable : Timetable
  seen : List ConflictKey
deriving DecidableEq, Repr

/-- Explicit-state rendering of the loop of
`check_h1_instructor_conflicts`: each iteration reads one session and
either returns a verdict or inserts the session's key into `seen`. -/
def h1_loop : List ScheduledSession → H1Memory → Bool × H1Memory
  | [], mem => (true, mem)
  | session :: rest, mem =>
    if session.slot ∈ session.instructor_id.available_slots then
      if sessionKey session ∈ mem.seen then
        (false, mem)
      else
        h1_loop rest { mem with seen := sessionKey session :: mem.seen }
    else
      (false, mem)

/-- One full call of the checker in the explicit-state rendering: the
`seen` mapping starts empty (it is local to the call), and the timetable
observable after the call is the timetable component of the final state. -/
def check_h1_run (timetable : Timetable) : Bool × Timetable :=
  let result := h1_loop timetable.sessions { timetable := timetable, seen := [] }
  (result.1, result.2.timetable)

theorem check_h1_go_cons (s : ScheduledSession) (rest : List ScheduledSession)
    (seen : List ConflictKey) :
    check_h1_go (s :: rest) seen =
      if s.slot ∈ s.instructor_id.available_slots then
        if sessionKey s ∈ seen then false
        else check_h1_go rest (sessionKey s :: seen)
      else false := rfl

/-- The scan underlying H1 succeeds exactly when every session sits in
its instructor's available slots, the session keys are pairwise
distinct, and none of them is already in `seen`. -/
theorem check_h1_go_eq_true_iff (l : List ScheduledSession) (seen : List ConflictKey) :
    check_h1_go l seen = true ↔
      ((∀ s ∈ l, s.slot ∈ s.instructor_id.available_slots) ∧
        (l.map sessionKey).Nodup ∧
        ∀ k ∈ l.map sessionKey, k ∉ seen) := by
  induction l generalizing seen with
  | nil => simp [check_h1_go]
  | cons s rest ih =>
    rw [check_h1_go_cons]
    by_cases havail : s.slot ∈ s.instructor_id.available_slots
    · by_cases hseen : sessionKey s ∈ seen
      · rw [if_pos havail, if_pos hseen]
        constructor
        · intro h
          exact absurd h (by simp)
        · rintro ⟨-, -, hnotin⟩
          exact absurd hseen (hnotin (sessionKey s) (by simp))
      · rw [if_pos havail, if_neg hseen, ih]
        constructor
        · rintro ⟨hall, hnodup, hnotin⟩
          refine ⟨?_, ?_, ?_⟩
          · intro s' hs'
            rcases List.mem_cons.mp hs' with rfl | hs'
            · exact havail
            · exact hall s' hs'
          · rw [List.map_cons, List.nodup_cons]
            refine ⟨fun hmem => (hnotin _ hmem) (List.mem_cons_self _ _), hnodup⟩
          · intro k hk
            rw [List.map_cons, List.mem_cons] at hk
            rcases hk with rfl | hk
            · exact hseen
            · exact fun hkseen => hnotin k hk (List.mem_cons_of_mem _ hkseen)
        · rintro ⟨hall, hnodup, hnotin⟩
          rw [List.map_cons, List.nodup_cons] at hnodup
          refine ⟨fun s' hs' => hall s' (List.mem_cons_of_mem _ hs'), hnodup.2, ?_⟩
          intro k hk hkmem
          rcases List.mem_cons.mp hkmem with rfl | hkseen
          · exact hnodup.1 hk
          · exact hnotin k (by rw [List.map_cons]; exact List.mem_cons_of_mem _ hk) hkseen
    · rw [if_neg havail]
      constructor
      · intro h
        exact absurd h (by simp)
      · rintro ⟨hall, -⟩
        exact absurd (hall s (by simp)) havail

/-- `check_h1_instructor_conflicts` succeeds exactly when every session
sits in its instructor's available slots and the session keys are
pairwise distinct. -/
theorem check_h1_eq_true_iff (t : Timetable) :
    check_h1_instructor_conflicts t = true ↔
      ((∀ s ∈ t.sessions, s.slot ∈ s.instructor_id.available_slots) ∧
        (t.sessions.map sessionKey).Nodup) := by
  rw [check_h1_instructor_conflicts, check_h1_go_eq_true_iff]
  simp

/-- The generic resource scan succeeds exactly when the extracted keys
are pairwise distinct and none of them is already in `seen`. -/
theorem scan_conflicts_eq_true_iff (key : ScheduledSession → ConflictKey)
    (l : List ScheduledSession) (seen : List ConflictKey) :
    scan_conflicts key l seen = true ↔
      ((l.map key).Nodup ∧ ∀ k ∈ l.map key, k ∉ seen) := by
  induction l generalizing seen with
  | nil => simp [scan_conflicts]
  | cons s rest ih =>
    rw [scan_conflicts]
    by_cases hseen : key s ∈ seen
    · rw [if_pos hseen]
      constructor
      · intro h
        exact absurd h (by simp)
      · rintro ⟨-, hnotin⟩
        exact absurd hseen (hnotin (key s) (by simp))
    · rw [if_neg hseen, ih]
      constructor
      · rintro ⟨hnodup, hnotin⟩
        refine ⟨?_, ?_⟩
        · rw [List.map_cons, List.nodup_cons]
          exact ⟨fun hmem => (hnotin _ hmem) (List.mem_cons_self _ _), hnodup⟩
        · intro k hk
          rw [List.map_cons, List.mem_cons] at hk
          rcases hk with rfl | hk
          · exact hseen
          · exact fun hkseen => hnotin k hk (List.mem_cons_of_mem _ hkseen)
      · rintro ⟨hnodup, hnotin⟩
        rw [List.map_cons, List.nodup_cons] at hnodup
        refine ⟨hnodup.2, ?_⟩
        intro k hk hkmem
        rcases List.mem_cons.mp hkmem with rfl | hkseen
        · exact hnodup.1 hk
        · exact hnotin k (by rw [List.map_cons]; exact List.mem_cons_of_mem _ hk) hkseen

/-- If a key extractor collides on two positions of a list, the mapped
key list is not duplicate-free. -/
theorem map_nodup_get_ne {α β : Type} (f : α → β) (l : List α)
    (i j : Fin l.length) (hij : i ≠ j) (hnodup : (l.map f).Nodup) :
    f (l.get i) ≠ f (l.get j) := by
  intro heq
  apply hij
  have hi : (i : Nat) < (l.map f).length := by simp [i.isLt]
  have hj : (j : Nat) < (l.map f).length := by simp [j.isLt]
  have h1 : (l.map f).get ⟨i, hi⟩ = f (l.get i) := by
    simp [List.getElem_map]
  have h2 : (l.map f).get ⟨j, hj⟩ = f (l.get j) := by
    simp [List.getElem_map]
  have hfin := (hnodup.get_inj_iff).mp (h1.trans (heq.trans h2.symm))
  have hval : (i : Nat) = (j : Nat) := by injection hfin
  exact Fin.ext hval

/-- The explicit-state loop never changes the timetable component of
the state: the source loop writes only to the local `seen` mapping. -/
theorem h1_loop_timetable (l : List ScheduledSession) (mem : H1Memory) :
    (h1_loop l mem).2.timetable = mem.timetable := by
  induction l generalizing mem with
  | nil => rfl
  | cons s rest ih =>
    rw [h1_loop]
    by_cases havail : s.slot ∈ s.instructor_id.available_slots
    · by_cases hseen : sessionKey s ∈ mem.seen
      · rw [if_pos havail, if_pos hseen]
      · rw [if_pos havail, if_neg hseen, ih]
    · rw [if_neg havail]

/-- The explicit-state loop computes the same verdict as the pure scan. -/
theorem h1_loop_fst (l : List ScheduledSession) (mem : H1Memory) :
    (h1_loop l mem).1 = check_h1_go l mem.seen := by
  induction l generalizing mem with
  | nil => rfl
  | cons s rest ih =>
    rw [h1_loop, check_h1_go_cons]
    by_cases havail : s.slot ∈ s.instructor_id.available_slots
    · by_cases hseen : sessionKey s ∈ mem.seen
      · rw [if_pos havail, if_pos hseen, if_pos havail, if_pos hseen]
      · rw [if_pos havail, if_neg hseen, if_pos havail, if_neg hseen, ih]
    · rw [if_neg havail, if_neg havail]

/-- One full explicit-state call agrees with the pure checker and hands
the timetable back unchanged. -/
theorem check_h1_run_spec (t : Timetable) :
    check_h1_run t = (check_h1_instructor_conflicts t, t) := by
  rw [check_h1_run, check_h1_instructor_conflicts]
  exact Prod.ext (h1_loop_fst t.sessions _) (h1_loop_timetable t.sessions _)

/-- The attributes H1 reads from a session: its slot, its instructor's
id and its instructor's available slots.  Everything else on a session
(course, group, room, type, instructor name, preferred slots) is never
consulted by `check_h1_instructor_conflicts`. -/
def H1Relevant (a b : ScheduledSession) : Prop :=
  a.slot = b.slot ∧ a.instructor_id.id = b.instructor_id.id ∧
    a.instructor_id.available_slots = b.instructor_id.available_slots

/-- The H1 scan is invariant under replacing sessions by `H1Relevant`-
equivalent ones. -/
theorem check_h1_go_congr {l1 l2 : List ScheduledSession}
    (h : List.Forall₂ H1Relevant l1 l2) :
    ∀ seen, check_h1_go l1 seen = check_h1_go l2 seen := by
  induction h with
  | nil => intro seen; rfl
  | @cons a b l1' l2' hab htl ih =>
    intro seen
    obtain ⟨hslot, hid, havl⟩ := hab
    rw [check_h1_go_cons, check_h1_go_cons]
    have hkey : sessionKey a = sessionKey b := by
      rw [sessionKey, sessionKey, hslot, hid]
    by_cases hm : b.slot ∈ b.instructor_id.available_slots
    · have hm' : a.slot ∈ a.instructor_id.available_slots := by
        rw [hslot, havl]; exact hm
      rw [if_pos hm', if_pos hm, hkey]
      by_cases hs : sessionKey b ∈ seen
      · rw [if_pos hs, if_pos hs]
      · rw [if_neg hs, if_neg hs, ih]
    · have hm' : a.slot ∉ a.instructor_id.available_slots := by
        rw [hslot, havl]; exact hm
      rw [if_neg hm', if_neg hm]

/-- If any session of the list fails its construction-time validator,
`Timetable` construction raises (fails fast with an error). -/
theorem Timetable.build_error_of_mem {l : List ScheduledSession}
    {s : ScheduledSession} {msg : String} (hs : s ∈ l)
    (herr : s.validate_slot = Except.error msg) :
    ∃ m, Timetable.build l = Except.error m := by
  induction l with
  | nil => cases hs
  | cons hd rest ih =>
    rw [Timetable.build]
    rcases List.mem_cons.mp hs with rfl | hs'
    · rw [herr]
      exact ⟨msg, rfl⟩
    · cases hv : hd.validate_slot with
      | error m => exact ⟨m, rfl⟩
      | ok s' =>
        obtain ⟨m, hm⟩ := ih hs'
        rw [hm]
        exact ⟨m, rfl⟩

/-- If every session passes its construction-time validator,
`Timetable` construction succeeds with exactly the given sessions. -/
theorem Timetable.build_ok {l : List ScheduledSession}
    (h : ∀ s ∈ l, s.validate_slot = Except.ok s) :
    Timetable.build l = Except.ok { sessions := l } := by
  induction l with
  | nil => rfl
  | cons hd rest ih =>
    rw [Timetable.build, h hd (List.mem_cons_self _ _),
      ih fun s hs => h s (List.mem_cons_of_mem _ hs)]

/-! Concrete sample values, mirroring the fixtures of
`src/tests/unit/test_hard_constraints.py`. -/

/-- Monday 10:00-12:00, the slot of `test_h1_multiple_instructors_no_conflict`. -/
def slotMon : TimeSlot := { day := Day.Monday, start := "10:00", «end» := "12:00" }

/-- Sunday 08:00-10:00, a slot outside the sample instructors' availability. -/
def slotSun : TimeSlot := { day := Day.Sunday, start := "08:00", «end» := "10:00" }

/-- Instructor 1, available only on Monday 10:00-12:00. -/
def instructorA : Instructor :=
  { id := 1, full_name := "A", available_slots := [slotMon] }

/-- Instructor 2, available only on Monday 10:00-12:00. -/
def instructorB : Instructor :=
  { id := 2, full_name := "B", available_slots := [slotMon] }

/-- A variant of instructor 1 agreeing on id and available slots but
differing on every other attribute. -/
def instructorA2 : Instructor :=
  { id := 1, full_name := "somebody else", available_slots := [slotMon],
    preferred_slots := some [slotMon, slotSun] }

/-- Sample student group. -/
def groupG : StudentGroup := { id := 1, name := "G1", major := "CS", entry_year := 2023 }

/-- A different sample student group. -/
def groupH : StudentGroup := { id := 2, name := "G2", major := "EE", entry_year := 2022 }

/-- Sample room. -/
def roomA : Room := { id := 1, name := "Room A", capacity := 30 }

/-- A different sample room. -/
def roomB : Room := { id := 2, name := "Room B", capacity := 60, is_lab := true }

/-- Lab session pattern on the Monday slot. -/
def labPatternMon : SessionPattern :=
  { type := PatternType.lab, lab_pattern := some { slot := slotMon } }

/-- Sample course with a lab pattern. -/
def courseCS : Course :=
  { id := 1, name := "CS", code := "CS101", session_pattern := some labPatternMon }

/-- A course with no session pattern, not yet schedulable. -/
def courseNoPattern : Course :=
  { id := 2, name := "Databases", code := "CS202", session_pattern := none }

/-- Instructor 1 teaching in the Monday slot. -/
def sessionA : ScheduledSession :=
  { course_id := courseCS, group_id := groupG, instructor_id := instructorA,
    room_id := roomA, slot := slotMon, type := SessionType.lab }

/-- Instructor 2 teaching in the same Monday slot. -/
def sessionB : ScheduledSession :=
  { course_id := courseCS, group_id := groupG, instructor_id := instructorB,
    room_id := roomA, slot := slotMon, type := SessionType.lab }

/-- A session scheduled outside its instructor's available slots. -/
def sessionUnavailable : ScheduledSession :=
  { course_id := courseCS, group_id := groupG, instructor_id := instructorA,
    room_id := roomA, slot := slotSun, type := SessionType.lab }

/-- A session agreeing with `sessionA` on everything H1 reads (slot,
instructor id, instructor available slots) but on nothing else. -/
def sessionA2 : ScheduledSession :=
  { course_id := courseNoPattern, group_id := groupH, instructor_id := instructorA2,
    room_id := roomB, slot := slotMon, type := SessionType.theory }

/-- A lab-typed session whose course carries no session pattern: the
malformed shape `validate_slot` rejects at construction time. -/
def sessionBadLab : ScheduledSession :=
  { course_id := courseNoPattern, group_id := groupG, instructor_id := instructorA,
    room_id := roomA, slot := slotMon, type := SessionType.lab }

/-! Claim theorems. -/

/-- C1: for every timetable in which every session's slot is a member of
its instructor's available_slots and no two sessions share the same
(instructor id, day, start, end) key, `check_h1_instructor_conflicts`
returns true: conflicts are scoped per resource, not global. -/
theorem h1_accepts_available_nonconflicting (t : Timetable)
    (havail : ∀ s ∈ t.sessions, s.slot ∈ s.instructor_id.available_slots)
    (hkeys : t.sessions.Pairwise fun s1 s2 => sessionKey s1 ≠ sessionKey s2) :
    check_h1_instructor_conflicts t = true := by
  rw [check_h1_eq_true_iff]
  exact ⟨havail, hkeys.map sessionKey fun _ _ h => h⟩

/-- C1 witness: instructor A and instructor B, two distinct ids, both
teaching Monday 10:00-12:00 — validation passes. -/
theorem h1_accepts_available_nonconflicting_witness :
    check_h1_instructor_conflicts { sessions := [sessionA, sessionB] } = true :=
  h1_accepts_available_nonconflicting _ (by decide) (by decide)

/-- C2: any timetable holding two sessions (at distinct positions, with
equal values allowed) with identical instructor and identical
(day, start, end) slot makes `check_h1_instructor_conflicts` return
false. -/
theorem h1_rejects_instructor_double_booking (t : Timetable)
    (i j : Fin t.sessions.length) (hij : i ≠ j)
    (hinstr : (t.sessions.get i).instructor_id = (t.sessions.get j).instructor_id)
    (hslot : (t.sessions.get i).slot = (t.sessions.get j).slot) :
    check_h1_instructor_conflicts t = false := by
  rw [← Bool.not_eq_true]
  intro htrue
  rw [check_h1_eq_true_iff] at htrue
  refine map_nodup_get_ne sessionKey t.sessions i j hij htrue.2 ?_
  rw [sessionKey, sessionKey, hinstr, hslot]

/-- C2 witness: the same session value duplicated is a conflict, not
de-duplicated away. -/
theorem h1_rejects_instructor_double_booking_witness :
    check_h1_instructor_conflicts { sessions := [sessionA, sessionA] } = false :=
  h1_rejects_instructor_double_booking { sessions := [sessionA, sessionA] }
    ⟨0, by decide⟩ ⟨1, by decide⟩ (by decide) rfl rfl

/-- C3: any timetable holding a session whose slot is absent from its
instructor's available_slots makes `check_h1_instructor_conflicts`
return false, regardless of conflicts with other sessions. -/
theorem h1_rejects_unavailable_slot (t : Timetable) (s : ScheduledSession)
    (hs : s ∈ t.sessions)
    (hnot : s.slot ∉ s.instructor_id.available_slots) :
    check_h1_instructor_conflicts t = false := by
  rw [← Bool.not_eq_true]
  intro htrue
  rw [check_h1_eq_true_iff] at htrue
  exact hnot (htrue.1 s hs)

/-- C3 witness: a single session scheduled on Sunday for an instructor
only available Monday fails H1. -/
theorem h1_rejects_unavailable_slot_witness :
    check_h1_instructor_conflicts { sessions := [sessionUnavailable] } = false :=
  h1_rejects_unavailable_slot _ sessionUnavailable (by decide) (by decide)

/-- C4: permuting the session list of a timetable never changes the
verdict of `check_h1_instructor_conflicts`. -/
theorem h1_verdict_perm_invariant (t1 t2 : Timetable)
    (h : t1.sessions.Perm t2.sessions) :
    check_h1_instructor_conflicts t1 = check_h1_instructor_conflicts t2 := by
  rw [Bool.eq_iff_iff, check_h1_eq_true_iff, check_h1_eq_true_iff]
  constructor
  · rintro ⟨hall, hnodup⟩
    exact ⟨fun s hs => hall s (h.mem_iff.mpr hs),
      ((h.map sessionKey).nodup_iff).mp hnodup⟩
  · rintro ⟨hall, hnodup⟩
    exact ⟨fun s hs => hall s (h.mem_iff.mp hs),
      ((h.map sessionKey).nodup_iff).mpr hnodup⟩

/-- C4 witness: swapping the two sessions of a concrete timetable
leaves the verdict unchanged. -/
theorem h1_verdict_perm_invariant_witness :
    check_h1_instructor_conflicts { sessions := [sessionA, sessionB] } =
      check_h1_instructor_conflicts { sessions := [sessionB, sessionA] } :=
  h1_verdict_perm_invariant _ _ (by decide)

/-- C5: a malformed session (lab-typed with a pattern-less course) makes
the validation pipeline fail fast with a raised error (the
PreconditionViolation kind), while for timetables of sessions accepted
by the construction layer the pipeline always returns the boolean
verdict of the constraint checker inside `Except.ok` — a domain-rule
violation is a negative verdict, never an error. -/
theorem validation_error_vs_verdict :
    (∀ (l : List ScheduledSession) (s : ScheduledSession), s ∈ l →
        s.type = SessionType.lab → s.course_id.session_pattern = none →
        ∃ msg, run_validation l = Except.error msg) ∧
    (∀ l : List ScheduledSession, (∀ s ∈ l, s.validate_slot = Except.ok s) →
        run_validation l = Except.ok (check_h1_instructor_conflicts { sessions := l })) := by
  constructor
  · intro l s hs hlab hnone
    have herr : s.validate_slot =
        Except.error "Lab sessions must have a lab session pattern defined" := by
      rw [ScheduledSession.validate_slot, if_pos ⟨hlab, hnone⟩]
    obtain ⟨m, hm⟩ := Timetable.build_error_of_mem hs herr
    refine ⟨m, ?_⟩
    rw [run_validation, hm]
  · intro l h
    rw [run_validation, Timetable.build_ok h]

/-- C5 witness: the malformed lab session raises at construction; the
double-booked (but well-formed) timetable yields the verdict
`Except.ok false` rather than an error. -/
theorem validation_error_vs_verdict_witness :
    (∃ msg, run_validation [sessionBadLab] = Except.error msg) ∧
    run_validation [sessionA, sessionA] = Except.ok false := by
  constructor
  · exact validation_error_vs_verdict.1 [sessionBadLab] sessionBadLab
      (List.mem_singleton.mpr rfl) rfl rfl
  · rw [validation_error_vs_verdict.2 [sessionA, sessionA] ?_]
    · rfl
    · intro s hs
      rcases List.mem_cons.mp hs with rfl | hs'
      · rfl
      · rcases List.mem_cons.mp hs' with rfl | hs''
        · rfl
        · exact absurd hs'' (List.not_mem_nil s)

/-- C6: the resource-conflict detection instantiated for rooms (H2) and
student groups (H3): two sessions at distinct positions with the same
room and identical (day, start, end) make H2 fail, and two sessions
with the same student group and identical (day, start, end) make H3
fail. -/
theorem h2_h3_reject_room_group_double_booking :
    (∀ (t : Timetable) (i j : Fin t.sessions.length), i ≠ j →
        (t.sessions.get i).room_id = (t.sessions.get j).room_id →
        (t.sessions.get i).slot = (t.sessions.get j).slot →
        check_h2_room_conflicts t = false) ∧
    (∀ (t : Timetable) (i j : Fin t.sessions.length), i ≠ j →
        (t.sessions.get i).group_id = (t.sessions.get j).group_id →
        (t.sessions.get i).slot = (t.sessions.get j).slot →
        check_h3_group_conflicts t = false) := by
  constructor
  · intro t i j hij hroom hslot
    rw [check_h2_room_conflicts, ← Bool.not_eq_true]
    intro htrue
    rw [scan_conflicts_eq_true_iff] at htrue
    refine map_nodup_get_ne roomKey t.sessions i j hij htrue.1 ?_
    rw [roomKey, roomKey, hroom, hslot]
  · intro t i j hij hgroup hslot
    rw [check_h3_group_conflicts, ← Bool.not_eq_true]
    intro htrue
    rw [scan_conflicts_eq_true_iff] at htrue
    refine map_nodup_get_ne groupKey t.sessions i j hij htrue.1 ?_
    rw [groupKey, groupKey, hgroup, hslot]

/-- C6 witness: two sessions in the same room, and in the same group,
at Monday 10:00-12:00 fail H2 and H3 respectively. -/
theorem h2_h3_reject_room_group_double_booking_witness :
    check_h2_room_conflicts { sessions := [sessionA, sessionB] } = false ∧
    check_h3_group_conflicts { sessions := [sessionA, sessionB] } = false := by
  constructor
  · exact h2_h3_reject_room_group_double_booking.1
      { sessions := [sessionA, sessionB] } ⟨0, by decide⟩ ⟨1, by decide⟩
      (by decide) rfl rfl
  · exact h2_h3_reject_room_group_double_booking.2
      { sessions := [sessionA, sessionB] } ⟨0, by decide⟩ ⟨1, by decide⟩
      (by decide) rfl rfl

/-- C7: validation is deterministic and stateless: one call of the
explicit-state rendering computes exactly the pure verdict, and a second
call on the timetable as the first call left it yields the same verdict
— no hidden state survives a call (the `seen` mapping starts empty each
time). -/
theorem h1_idempotent_no_hidden_state (t : Timetable) :
    (check_h1_run t).1 = check_h1_instructor_conflicts t ∧
    (check_h1_run ((check_h1_run t).2)).1 = (check_h1_run t).1 := by
  rw [check_h1_run_spec t]
  exact ⟨rfl, (congrArg Prod.fst (check_h1_run_spec t)).symm ▸ rfl⟩

/-- C8: the validation engine never mutates its input: the timetable
(and hence every session, course, instructor, room, group and slot it
contains) observable after the call equals the one handed in, and the
verdict is the pure function of it. -/
theorem h1_never_mutates_input (t : Timetable) :
    (check_h1_run t).2 = t ∧
    (check_h1_run t).1 = check_h1_instructor_conflicts t := by
  rw [check_h1_run_spec t]
  exact ⟨rfl, rfl⟩

/-- C9: the H1 verdict depends only on each session's slot and its
instructor's id and available_slots: two timetables of the same length
whose i-th sessions agree on these fields receive the same verdict,
whatever their courses, groups, rooms, types, instructor names or
preferred slots. -/
theorem h1_depends_only_on_slot_and_instructor_key (t1 t2 : Timetable)
    (h : List.Forall₂ H1Relevant t1.sessions t2.sessions) :
    check_h1_instructor_conflicts t1 = check_h1_instructor_conflicts t2 := by
  rw [check_h1_instructor_conflicts, check_h1_instructor_conflicts]
  exact check_h1_go_congr h []

/-- C9 witness: replacing a session's course, group, room, type and the
instructor's name and preferred slots — keeping slot, instructor id and
available slots — leaves the verdict unchanged. -/
theorem h1_depends_only_on_slot_and_instructor_key_witness :
    check_h1_instructor_conflicts { sessions := [sessionA] } =
      check_h1_instructor_conflicts { sessions := [sessionA2] } :=
  h1_depends_only_on_slot_and_instructor_key _ _
    (List.Forall₂.cons ⟨rfl, rfl, rfl⟩ List.Forall₂.nil)

/-- C10: the empty timetable, accepted by the model layer, satisfies H1. -/
theorem h1_empty_timetable_true :
    check_h1_instructor_conflicts { sessions := [] } = true := rfl

end SyncortexGA
